import Mathlib

/-!
# cpp-frp: push repositories and sinks

A shallow embedding of `frp/push/repository.h` and `frp/push/sink.h`.

* A `shared_ptr` that may be null is an `Option`; `std::atomic_load` reads the
  option, `std::atomic_store` replaces it.
* The variadic pack of dependencies is an ordered list; the
  `std::array<revision_type, N>` of revisions is the list of the same length.
* `std::atomic_compare_exchange_weak` can fail, either spuriously or because
  another thread has replaced the slot.  The commit loop is therefore run
  against the list of snapshots found by its failing exchanges; the empty list
  is an execution in which the first exchange succeeds.  The same loop is also
  given as an atomic step of one thread among many (`commit_thread.step`).
* The `storage` pointer of a sink may itself be null (default constructor,
  moved-from sink); `->` on it is the failure `null_dereference`.
* A commit object is a value: the generator passes a fresh object to each call
  of the commit lambda, so that assigning `commit->revision` never touches a
  snapshot already published.
* The headers `frp/util/storage.h`, `frp/util/variadic.h` and
  `frp/util/observable.h` are not embedded from code; what is used from them
  is modelled from the specification and marked as such.
-/

namespace frp

namespace util

/-- Modelled from the spec: `util::revision_type` (declared in `frp/util/storage.h`,
which is missing). The spec's data model gives `revision: integer`; revisions are
counted in `Nat`. -/
abbrev revision_type : Type := Nat

/-- Modelled from the spec: `util::default_revision` (declared in `frp/util/storage.h`,
which is missing). The spec's commit protocol uses `(s?.revision ?? 0) + 1`. -/
def default_revision : revision_type := 0

/-- Modelled from the spec: `util::storage_type<T>` (declared in `frp/util/storage.h`,
which is missing). The members `value` and `revision` are the ones read by
`sink_repository_type::operator*` and `update_impl`. -/
structure storage_type (T : Type) where
  value : T
  revision : revision_type
deriving DecidableEq, Repr

/-- Modelled from the spec: `util::commit_storage_type<T, N>` (declared in
`frp/util/storage.h`, which is missing): a `storage_type<T>` that also records the
provenance, the revisions of the dependencies it was computed from. -/
structure commit_storage_type (T : Type) where
  value : T
  revision : revision_type
  revisions : List revision_type
deriving DecidableEq, Repr

/-- The `storage_type<T>` base of a `commit_storage_type<T, N>`: the conversion made when
`get()` returns the slot as `std::shared_ptr<util::storage_type<T>>`. -/
def commit_storage_type.to_storage {T : Type} (c : commit_storage_type T) : storage_type T :=
  { value := c.value, revision := c.revision }

/-- Element-wise `≥` of two revision vectors of the same length: `a` dominates or
equals `b`. -/
def dominates_or_equals : List revision_type → List revision_type → Bool
  | [], [] => true
  | a :: as, b :: bs => decide (b ≤ a) && dominates_or_equals as bs
  | _, _ => false

/-- Some element of `a` is strictly greater than the element of `b` at the same place. -/
def somewhere_greater : List revision_type → List revision_type → Bool
  | a :: as, b :: bs => decide (b < a) || somewhere_greater as bs
  | _, _ => false

/-- Modelled from the spec: `commit_storage_type::is_newer(revisions)` (defined in
`frp/util/storage.h`, which is missing). Invariant I3: the given revisions strictly
dominate the provenance of this snapshot, that is, they are element-wise `≥` with at
least one element strictly greater. -/
def commit_storage_type.is_newer {T : Type} (self : commit_storage_type T)
    (revisions : List revision_type) : Bool :=
  dominates_or_equals revisions self.revisions && somewhere_greater revisions self.revisions

/-- Modelled from the spec: `storage_type::compare_value(other)` (defined in
`frp/util/storage.h`, which is missing): the equality predicate `equals` supplied for
the value type, applied to the two values. -/
def commit_storage_type.compare_value {T : Type} (equals : T → T → Bool)
    (self other : commit_storage_type T) : Bool :=
  equals self.value other.value

/-- Modelled from the spec: `util::all_true(values...)` (defined in
`frp/util/variadic.h`, which is missing): every pointer of the pack is non-null. -/
def all_true {α : Type} (values : List (Option α)) : Bool :=
  values.all Option.isSome

/-- The pointers of the pack, dereferenced in order (`values->...`). -/
def deref {α : Type} (values : List (Option α)) : List α :=
  values.filterMap id

/-- Strict dominance as the specification words it: same length, every element of `a`
is `≥` the element of `b` at its place, and one is strictly greater. -/
def StrictlyDominates (a b : List revision_type) : Prop :=
  a.length = b.length ∧ (∀ i, b.getD i 0 ≤ a.getD i 0) ∧ ∃ i, i < a.length ∧ b.getD i 0 < a.getD i 0

/-- Dominance or equality as the specification words it: same length and every element
of `a` is `≥` the element of `b` at its place. -/
def DominatesOrEquals (a b : List revision_type) : Prop :=
  a.length = b.length ∧ ∀ i, b.getD i 0 ≤ a.getD i 0

end util

namespace push

open util

namespace repository_type

/-- The revision of the snapshot a slot holds, `default_revision` when it holds none:
`value ? value->revision : util::default_revision`. -/
def revision_or_default {T : Type} (value : Option (commit_storage_type T)) : revision_type :=
  match value with
  | some v => v.revision
  | none => default_revision

/-- The body of the do-while of the commit lambda:
`commit->revision = (value ? value->revision : util::default_revision) + 1`. -/
def assign_revision {T : Type} (commit : commit_storage_type T)
    (value : Option (commit_storage_type T)) : commit_storage_type T :=
  { commit with revision := revision_or_default value + 1 }

/-- The first conjunct of the do-while condition of the commit lambda:
`!value || (value->is_newer(revisions) && !commit->compare_value(*value))`. -/
def wants_exchange {T : Type} (equals : T → T → Bool) (revisions : List revision_type)
    (commit : commit_storage_type T) (value : Option (commit_storage_type T)) : Bool :=
  match value with
  | none => true
  | some v => v.is_newer revisions && !(commit.compare_value equals v)

/-- The state in which the commit lambda returns: the slot `storage->value`, the local
`value` (the snapshot the last decision was taken against) and the commit object. -/
structure commit_state (T : Type) where
  slot : Option (commit_storage_type T)
  value : Option (commit_storage_type T)
  commit : commit_storage_type T
deriving DecidableEq, Repr

/-- The do-while loop of the commit lambda, entered with the local `value`.
`fails` lists what the failing compare-exchanges find in the slot, in order (a failing
exchange stores it into `value`); when the list is used up the exchange succeeds and
stores `commit` in the slot. The loop is left without an exchange as soon as
`wants_exchange` is false. -/
def commit_loop {T : Type} (equals : T → T → Bool) (revisions : List revision_type) :
    List (Option (commit_storage_type T)) → commit_storage_type T →
    Option (commit_storage_type T) → commit_state T
  | [], commit, value =>
    let commit := assign_revision commit value
    if wants_exchange equals revisions commit value then
      { slot := some commit, value := value, commit := commit }
    else
      { slot := value, value := value, commit := commit }
  | current :: fails, commit, value =>
    let commit := assign_revision commit value
    if wants_exchange equals revisions commit value then
      commit_loop equals revisions fails commit current
    else
      { slot := value, value := value, commit := commit }

/-- Modelled from the spec: the subscription registry `util::observable_type` (declared
in `frp/util/observable.h`, which is missing), the base of `storage_type`. Callbacks are
named by a number. -/
abbrev callback_type : Type := Nat

/-- The node `template_storage_type<GeneratorT, DependenciesT...>`.
`value` is the slot. `callbacks` is the registry inherited from `util::observable_type`.
Two traces record what the node does to its collaborators: `invoked` lists the
callbacks of the registry the node has called, `generated` lists the arguments of every
call of `generator`. The dependencies are other objects: what their `get()` returns is
an argument of `update`. -/
structure template_storage_type (T D : Type) where
  value : Option (commit_storage_type T)
  callbacks : List callback_type
  invoked : List callback_type
  generated : List (List revision_type × List (storage_type D))
deriving DecidableEq, Repr

/-- The method `template_storage_type::get`: `std::atomic_load(&value)`; a caller that
wants the `storage_type<T>` base takes `to_storage` of the snapshot. -/
def template_storage_type.get {T D : Type} (storage : template_storage_type T D) :
    Option (commit_storage_type T) :=
  storage.value

/-- Modelled from the spec: `observable_type::add_callback` (declared in
`frp/util/observable.h`, which is missing), to which `repository_type::add_callback`
forwards: the callback joins the registry of the node. -/
def template_storage_type.add_callback {T D : Type} (f : callback_type)
    (storage : template_storage_type T D) : template_storage_type T D :=
  { storage with callbacks := storage.callbacks ++ [f] }

/-- The commit lambda handed to the generator by `update_impl`, with the captured
`revisions`, called on `commit`:
`auto value(std::atomic_load(&storage->value)); do ... while (...)`.
It touches nothing of the node but the slot. -/
def commit_lambda {T D : Type} (equals : T → T → Bool) (revisions : List revision_type)
    (fails : List (Option (commit_storage_type T))) (commit : commit_storage_type T)
    (storage : template_storage_type T D) : template_storage_type T D :=
  { storage with value := (commit_loop equals revisions fails commit storage.value).slot }

/-- The commit objects a generator passes to the commit lambda before it returns, one
call after the other; `fails` gives the failing exchanges of each call, none for the
calls beyond its length. -/
def run_commits {T D : Type} (equals : T → T → Bool) (revisions : List revision_type) :
    List (commit_storage_type T) → List (List (Option (commit_storage_type T))) →
    template_storage_type T D → template_storage_type T D
  | [], _, storage => storage
  | commit :: commits, [], storage =>
    run_commits equals revisions commits [] (commit_lambda equals revisions [] commit storage)
  | commit :: commits, f :: fails, storage =>
    run_commits equals revisions commits fails (commit_lambda equals revisions f commit storage)

/-- The generator of a node, an external collaborator: called with the revisions and
the snapshots of the dependencies, it yields the commit objects it passes to the
commit lambda before returning (none when it defers the commit or never commits). -/
abbrev generator_type (T D : Type) : Type :=
  List revision_type → List (storage_type D) → List (commit_storage_type T)

/-- The method `template_storage_type::update_impl(values...)`, where `values` is what
`get()` of each dependency returned, in the order of the dependencies. -/
def update_impl {T D : Type} (equals : T → T → Bool) (generator : generator_type T D)
    (fails : List (List (Option (commit_storage_type T))))
    (values : List (Option (storage_type D)))
    (storage : template_storage_type T D) : template_storage_type T D :=
  if all_true values then
    let revisions := (deref values).map storage_type.revision
    let value := storage.value
    if value.isNone || value.any (fun v => v.is_newer revisions) then
      run_commits equals revisions (generator revisions (deref values)) fails
        { storage with generated := storage.generated ++ [(revisions, deref values)] }
    else
      storage
  else
    storage

/-- The method `template_storage_type::update`: `update_impl` on `get()` of every
dependency. -/
def update {T D : Type} (equals : T → T → Bool) (generator : generator_type T D)
    (fails : List (List (Option (commit_storage_type T))))
    (values : List (Option (storage_type D)))
    (storage : template_storage_type T D) : template_storage_type T D :=
  update_impl equals generator fails values storage

/-- A node as `std::make_shared<template_storage_type<...>>` leaves it: the slot is
null and nothing is registered. -/
def make_shared {T D : Type} : template_storage_type T D :=
  { value := none, callbacks := [], invoked := [], generated := [] }

/-- The constructor `repository_type(storage)` reached through `make`: the callbacks on
the dependencies are registered (they live in the dependencies), then
`storage->update()` runs once. -/
def make {T D : Type} (equals : T → T → Bool) (generator : generator_type T D)
    (fails : List (List (Option (commit_storage_type T))))
    (values : List (Option (storage_type D))) : template_storage_type T D :=
  update equals generator fails values make_shared

/-- A generator that calls the commit lambda once, before returning, with the value
`f` computes from the values of the dependencies. -/
def synchronous_generator {T D : Type} (f : List D → T) : generator_type T D :=
  fun revisions values =>
    [{ value := f (values.map storage_type.value), revision := default_revision,
       revisions := revisions }]

/-- Successive calls of `update()`, each with what the dependencies hold at that time. -/
def updates {T D : Type} (equals : T → T → Bool) (generator : generator_type T D) :
    List (List (Option (storage_type D))) → template_storage_type T D →
    template_storage_type T D
  | [], storage => storage
  | values :: rest, storage =>
    updates equals generator rest (update equals generator [] values storage)

/-- Where a thread stands in the commit lambda. -/
inductive commit_pc where
  | load
  | loop
  | done
deriving DecidableEq, Repr

/-- A thread running the commit lambda: the captured `revisions`, the `commit` object,
the local `value` and the place it has reached. -/
structure commit_thread (T : Type) where
  revisions : List revision_type
  commit : commit_storage_type T
  value : Option (commit_storage_type T)
  pc : commit_pc
deriving DecidableEq, Repr

/-- The call `std::atomic_compare_exchange_weak(&obj, &expected, desired)`: it yields
whether it exchanged, the object and `expected` afterwards. It fails when the object
differs from `expected` and may fail spuriously. -/
def atomic_compare_exchange_weak {α : Type} [DecidableEq α] (spurious : Bool)
    (obj expected desired : α) : Bool × α × α :=
  if obj = expected ∧ spurious = false then (true, desired, expected) else (false, obj, obj)

/-- One atomic action of a thread on the slot: the initial `std::atomic_load`, or one
pass of the do-while with its compare-exchange. -/
def commit_thread.step {T : Type} [DecidableEq T] (equals : T → T → Bool) (spurious : Bool)
    (t : commit_thread T) (slot : Option (commit_storage_type T)) :
    commit_thread T × Option (commit_storage_type T) :=
  match t.pc with
  | commit_pc.load => ({ t with value := slot, pc := commit_pc.loop }, slot)
  | commit_pc.loop =>
    let commit := assign_revision t.commit t.value
    if wants_exchange equals t.revisions commit t.value then
      match atomic_compare_exchange_weak spurious slot t.value (some commit) with
      | (true, obj, expected) =>
        ({ t with commit := commit, value := expected, pc := commit_pc.done }, obj)
      | (false, obj, expected) =>
        ({ t with commit := commit, value := expected }, obj)
    else
      ({ t with commit := commit, pc := commit_pc.done }, slot)
  | commit_pc.done => (t, slot)

/-- Any number of threads running commit lambdas of one node, and the slot of the node. -/
structure commit_system (T : Type) where
  threads : List (commit_thread T)
  slot : Option (commit_storage_type T)
deriving DecidableEq, Repr

/-- The thread numbered `i` takes one atomic action (nothing happens when there is no
such thread). -/
def commit_system.step {T : Type} [DecidableEq T] (equals : T → T → Bool)
    (s : commit_system T) (choice : Nat × Bool) : commit_system T :=
  match s.threads.get? choice.1 with
  | none => s
  | some t =>
    let r := t.step equals choice.2 s.slot
    { threads := s.threads.set choice.1 r.1, slot := r.2 }

/-- An interleaving: the threads act in the order of `schedule`. -/
def commit_system.run {T : Type} [DecidableEq T] (equals : T → T → Bool)
    (s : commit_system T) (schedule : List (Nat × Bool)) : commit_system T :=
  schedule.foldl (commit_system.step equals) s

/-- The slots seen along an interleaving, the initial one first. -/
def commit_system.slots {T : Type} [DecidableEq T] (equals : T → T → Bool) :
    commit_system T → List (Nat × Bool) → List (Option (commit_storage_type T))
  | s, [] => [s.slot]
  | s, choice :: schedule => s.slot :: commit_system.slots equals (s.step equals choice) schedule

/-- The relation between a slot and the same slot later: the revision has not gone
down, and it has gone up when the slot holds another snapshot. -/
def slot_later {T : Type} (a b : Option (commit_storage_type T)) : Prop :=
  revision_or_default a ≤ revision_or_default b ∧
    (b ≠ a → revision_or_default a < revision_or_default b)

/-- The relation between a slot before and after one atomic action: it is untouched, or
it holds a new snapshot whose revision is one more than the revision before. -/
def slot_next {T : Type} (a b : Option (commit_storage_type T)) : Prop :=
  b = a ∨ ∃ c, b = some c ∧ c.revision = revision_or_default a + 1

end repository_type

/-- The ways a call on a sink fails: it throws `std::domain_error(what)`, or it goes
through a null `std::shared_ptr` with `->`, which is undefined behaviour. -/
inductive failure where
  | domain_error (what : String)
  | null_dereference
deriving DecidableEq, Repr

namespace sink_repository_type

/-- The storage `sink_repository_type<T>::template_storage_type<DependencyT>`: the slot
`value`. The dependency is another object: what its `get()` returns is an argument of
`evaluate`. -/
structure template_storage_type (T : Type) where
  value : Option (storage_type T)
deriving DecidableEq, Repr

/-- The method `template_storage_type::get`: `std::atomic_load(&value)`. -/
def template_storage_type.get {T : Type} (storage : template_storage_type T) :
    Option (storage_type T) :=
  storage.value

/-- The method `template_storage_type::evaluate`:
`std::atomic_store(&value, util::unwrap_reference(dependency).get())`. -/
def template_storage_type.evaluate {T : Type} (dependency : Option (storage_type T))
    (_storage : template_storage_type T) : template_storage_type T :=
  { value := dependency }

end sink_repository_type

/-- The sink `sink_repository_type<T>`: the member
`std::shared_ptr<util::storage_supplier_type<T>> storage`, which is null in a sink made
by the default constructor and in a sink that has been moved from. -/
structure sink_repository_type (T : Type) where
  storage : Option (sink_repository_type.template_storage_type T)
deriving DecidableEq, Repr

namespace sink_repository_type

/-- The default constructor `sink_repository_type() = default`: `storage` is null. -/
def default_constructor {T : Type} : sink_repository_type T :=
  { storage := none }

/-- The move constructor `sink_repository_type(sink_repository_type &&) = default`: the
new sink takes the storage, and `other` is left with a null `storage`. The pair is the
new sink and `other` afterwards. -/
def move_constructor {T : Type} (other : sink_repository_type T) :
    sink_repository_type T × sink_repository_type T :=
  ({ storage := other.storage }, { storage := none })

/-- The method `sink_repository_type::get`: `storage->get()`, with no check of
`storage`. -/
def get {T : Type} (sink : sink_repository_type T) : Except failure (Option (storage_type T)) :=
  match sink.storage with
  | none => Except.error failure.null_dereference
  | some storage => Except.ok storage.get

/-- The conversion `sink_repository_type::operator bool`: `!!get()`. -/
def operator_bool {T : Type} (sink : sink_repository_type T) : Except failure Bool :=
  match sink.get with
  | Except.error e => Except.error e
  | Except.ok storage => Except.ok (!!(storage.isSome))

/-- The operator `sink_repository_type::operator*`: `auto storage(get())`, then throws
`std::domain_error("value not available")` when it is null, else returns
`storage->value`. -/
def operator_star {T : Type} (sink : sink_repository_type T) : Except failure T :=
  match sink.get with
  | Except.error e => Except.error e
  | Except.ok none => Except.error (failure.domain_error "value not available")
  | Except.ok (some storage) => Except.ok storage.value

/-- The callback the constructor registers on the dependency: when the storage is
still alive, `storage->evaluate()`. `dependency` is what `get()` of the dependency
returns when the callback runs. The callback acts on the storage it has captured: a
sink whose `storage` is null has none to act on. -/
def callback {T : Type} (dependency : Option (storage_type T))
    (sink : sink_repository_type T) : sink_repository_type T :=
  match sink.storage with
  | none => sink
  | some storage => { storage := some (storage.evaluate dependency) }

/-- The constructor reached through `make` and `sink(dependency)`: a fresh storage with
a null slot, the callback registered on the dependency, then `storage->evaluate()`. -/
def make {T : Type} (dependency : Option (storage_type T)) : sink_repository_type T :=
  { storage := some (template_storage_type.evaluate dependency { value := none }) }

/-- The notifications delivered to a sink in order, each with what the dependency holds
when it is delivered. -/
def notify {T : Type} (sink : sink_repository_type T) :
    List (Option (storage_type T)) → sink_repository_type T
  | [] => sink
  | dependency :: rest => notify (callback dependency sink) rest

end sink_repository_type

end push

/-! ## Revision vectors -/

namespace util

theorem dominates_or_equals_iff (a b : List revision_type) :
    dominates_or_equals a b = true ↔ DominatesOrEquals a b := by
  induction a generalizing b with
  | nil =>
    cases b with
    | nil => simp [dominates_or_equals, DominatesOrEquals]
    | cons y ys => simp [dominates_or_equals, DominatesOrEquals]
  | cons x xs ih =>
    cases b with
    | nil => simp [dominates_or_equals, DominatesOrEquals]
    | cons y ys =>
      simp only [dominates_or_equals, Bool.and_eq_true, decide_eq_true_eq, ih ys,
        DominatesOrEquals, List.length_cons, Nat.succ.injEq]
      constructor
      · rintro ⟨hxy, hlen, hall⟩
        refine ⟨hlen, fun i => ?_⟩
        cases i with
        | zero => simpa using hxy
        | succ j => simpa using hall j
      · rintro ⟨hlen, hall⟩
        refine ⟨by simpa using hall 0, hlen, fun i => ?_⟩
        simpa using hall (i + 1)

theorem somewhere_greater_iff (a b : List revision_type) :
    somewhere_greater a b = true ↔
      ∃ i, i < a.length ∧ i < b.length ∧ b.getD i 0 < a.getD i 0 := by
  induction a generalizing b with
  | nil => simp [somewhere_greater]
  | cons x xs ih =>
    cases b with
    | nil => simp [somewhere_greater]
    | cons y ys =>
      simp only [somewhere_greater, Bool.or_eq_true, decide_eq_true_eq, ih ys, List.length_cons]
      constructor
      · rintro (hxy | ⟨i, h1, h2, h3⟩)
        · exact ⟨0, by omega, by omega, by simpa using hxy⟩
        · exact ⟨i + 1, by omega, by omega, by simpa using h3⟩
      · rintro ⟨i, h1, h2, h3⟩
        cases i with
        | zero => exact Or.inl (by simpa using h3)
        | succ j => exact Or.inr ⟨j, by omega, by omega, by simpa using h3⟩

theorem is_newer_iff {T : Type} (self : commit_storage_type T) (revisions : List revision_type) :
    self.is_newer revisions = true ↔ StrictlyDominates revisions self.revisions := by
  simp only [commit_storage_type.is_newer, Bool.and_eq_true, dominates_or_equals_iff,
    somewhere_greater_iff, DominatesOrEquals, StrictlyDominates]
  constructor
  · rintro ⟨⟨hlen, hall⟩, i, h1, _, h3⟩
    exact ⟨hlen, hall, i, h1, h3⟩
  · rintro ⟨hlen, hall, i, h1, h3⟩
    exact ⟨⟨hlen, hall⟩, i, h1, by omega, h3⟩

end util

namespace push

open util

namespace repository_type

/-! ## The commit loop -/

theorem assign_revision_idem {T : Type} (commit : commit_storage_type T)
    (v w : Option (commit_storage_type T)) :
    assign_revision (assign_revision commit v) w = assign_revision commit w := rfl

theorem wants_exchange_assign {T : Type} (equals : T → T → Bool)
    (revisions : List revision_type) (commit : commit_storage_type T)
    (v w : Option (commit_storage_type T)) :
    wants_exchange equals revisions (assign_revision commit v) w
      = wants_exchange equals revisions commit w := by
  cases w <;> rfl

/-- How the commit loop ends: the commit object carries the revision assigned against
the last `value`, which is the initial one or one found by a failing exchange; either
the exchange was wanted and the slot holds the commit object, or it was not and the
slot holds `value`. -/
theorem commit_loop_exit {T : Type} (equals : T → T → Bool) (revisions : List revision_type)
    (fails : List (Option (commit_storage_type T))) (commit : commit_storage_type T)
    (value : Option (commit_storage_type T)) :
    (commit_loop equals revisions fails commit value).commit
        = assign_revision commit (commit_loop equals revisions fails commit value).value ∧
    (commit_loop equals revisions fails commit value).value ∈ value :: fails ∧
    ((wants_exchange equals revisions commit
          (commit_loop equals revisions fails commit value).value = true ∧
        (commit_loop equals revisions fails commit value).slot
          = some (commit_loop equals revisions fails commit value).commit) ∨
     (wants_exchange equals revisions commit
          (commit_loop equals revisions fails commit value).value = false ∧
        (commit_loop equals revisions fails commit value).slot
          = (commit_loop equals revisions fails commit value).value)) := by
  induction fails generalizing commit value with
  | nil =>
    unfold commit_loop
    simp only [wants_exchange_assign]
    cases h : wants_exchange equals revisions commit value <;> simp [h]
  | cons current rest ih =>
    unfold commit_loop
    simp only [wants_exchange_assign]
    cases h : wants_exchange equals revisions commit value
    · simp [h]
    · simp only [if_true]
      obtain ⟨h1, h2, h3⟩ := ih (assign_revision commit value) current
      simp only [wants_exchange_assign, assign_revision_idem] at h1 h3
      exact ⟨h1, List.mem_cons_of_mem _ h2, h3⟩

/-- When no exchange is wanted against the snapshot first loaded, the loop ends at once,
whatever other threads do. -/
theorem commit_loop_discard {T : Type} (equals : T → T → Bool) (revisions : List revision_type)
    (fails : List (Option (commit_storage_type T))) (commit : commit_storage_type T)
    (value : Option (commit_storage_type T))
    (h : wants_exchange equals revisions commit value = false) :
    commit_loop equals revisions fails commit value
      = { slot := value, value := value, commit := assign_revision commit value } := by
  cases fails <;> simp [commit_loop, wants_exchange_assign, h]

/-- With no failing exchange the loop decides against the snapshot first loaded. -/
theorem commit_loop_nil_value {T : Type} (equals : T → T → Bool)
    (revisions : List revision_type) (commit : commit_storage_type T)
    (value : Option (commit_storage_type T)) :
    (commit_loop equals revisions [] commit value).value = value := by
  unfold commit_loop
  simp only []
  split <;> rfl

/-! ## The commit lambda -/

/-- C1: a commit attempt replaces a snapshot only when the captured baseline strictly
dominates (element-wise `≥`, one element strictly greater) the provenance of the
snapshot it replaces; a baseline that does not strictly dominate leaves the slot with
the same snapshot, whatever other threads do; an empty slot receives any candidate. The
last three conjuncts say the same of the snapshot the final decision was taken against,
when exchanges failed and the slot was reloaded. -/
theorem commit_replaces_only_strictly_dominated {T D : Type} (equals : T → T → Bool)
    (revisions : List revision_type) (fails : List (Option (commit_storage_type T)))
    (commit : commit_storage_type T) (storage : template_storage_type T D) :
    (∀ s, storage.value = some s → ¬ StrictlyDominates revisions s.revisions →
      commit_lambda equals revisions fails commit storage = storage) ∧
    (∀ s, storage.value = some s →
      (commit_lambda equals revisions [] commit storage).value ≠ some s →
      StrictlyDominates revisions s.revisions) ∧
    (storage.value = none →
      (commit_lambda equals revisions [] commit storage).value
        = some { commit with revision := 1 }) ∧
    (∀ s, (commit_loop equals revisions fails commit storage.value).value = some s →
      (commit_loop equals revisions fails commit storage.value).slot ≠ some s →
      StrictlyDominates revisions s.revisions) ∧
    (∀ s, (commit_loop equals revisions fails commit storage.value).value = some s →
      ¬ StrictlyDominates revisions s.revisions →
      (commit_loop equals revisions fails commit storage.value).slot = some s) ∧
    ((commit_loop equals revisions fails commit storage.value).value = none →
      (commit_loop equals revisions fails commit storage.value).slot
        = some { commit with revision := 1 }) := by
  have key : ∀ (fs : List (Option (commit_storage_type T))) (s : commit_storage_type T),
      (commit_loop equals revisions fs commit storage.value).value = some s →
      (commit_loop equals revisions fs commit storage.value).slot ≠ some s →
      StrictlyDominates revisions s.revisions := by
    intro fs s hv hne
    obtain ⟨_, _, h | h⟩ := commit_loop_exit equals revisions fs commit storage.value
    · rw [hv] at h
      have hw := h.1
      simp only [wants_exchange, Bool.and_eq_true] at hw
      exact (is_newer_iff s revisions).mp hw.1
    · rw [hv] at h
      exact absurd h.2 hne
  refine ⟨?_, ?_, ?_, key fails, ?_, ?_⟩
  · intro s hs hnot
    have hw : wants_exchange equals revisions commit storage.value = false := by
      rw [hs]
      simp only [wants_exchange, Bool.and_eq_false_imp]
      intro hn
      exact absurd ((is_newer_iff s revisions).mp hn) hnot
    simp only [commit_lambda, commit_loop_discard equals revisions fails commit _ hw]
  · intro s hs hne
    refine key [] s ?_ hne
    rw [commit_loop_nil_value, hs]
  · intro hnone
    simp [commit_lambda, commit_loop, hnone, wants_exchange, assign_revision,
      revision_or_default, default_revision]
  · intro s hv hnot
    obtain ⟨_, _, h | h⟩ := commit_loop_exit equals revisions fails commit storage.value
    · rw [hv] at h
      have hw := h.1
      simp only [wants_exchange, Bool.and_eq_true] at hw
      exact absurd ((is_newer_iff s revisions).mp hw.1) hnot
    · rw [h.2, hv]
  · intro hv
    obtain ⟨hc, _, h | h⟩ := commit_loop_exit equals revisions fails commit storage.value
    · rw [h.2, hc, hv]
      rfl
    · rw [hv] at h
      simp [wants_exchange] at h

/-- C1, at a concrete node: the baseline `[2, 3]` strictly dominates the provenance
`[1, 3]` of the snapshot in the slot, and the snapshot is replaced. -/
theorem commit_replaces_only_strictly_dominated_witness :
    (commit_lambda (fun (a b : Nat) => a == b) [2, 3] [] ⟨10, 0, [2, 3]⟩
        (⟨some ⟨7, 4, [1, 3]⟩, [], [], []⟩ : template_storage_type Nat Nat)).value
      ≠ some ⟨7, 4, [1, 3]⟩ ∧
    StrictlyDominates [2, 3] [1, 3] :=
  ⟨by decide,
   (commit_replaces_only_strictly_dominated (fun (a b : Nat) => a == b) [2, 3] []
      ⟨10, 0, [2, 3]⟩ (⟨some ⟨7, 4, [1, 3]⟩, [], [], []⟩ : template_storage_type Nat Nat)).2.1
      ⟨7, 4, [1, 3]⟩ rfl (by decide)⟩

/-- C2: when the slot holds a snapshot `s` and the candidate's value equals the value of
`s` under the equality of the value type, the commit lambda leaves the node as it was,
whatever other threads do: the slot still holds `s` (same value, same revision) and no
callback of the node has been invoked. The last conjunct says the same of a snapshot
reloaded after a failed exchange. -/
theorem commit_discards_equal_value {T D : Type} (equals : T → T → Bool)
    (revisions : List revision_type) (fails : List (Option (commit_storage_type T)))
    (commit : commit_storage_type T) (storage : template_storage_type T D)
    (s : commit_storage_type T) (hs : storage.value = some s)
    (heq : commit.compare_value equals s = true) :
    commit_lambda equals revisions fails commit storage = storage ∧
    (commit_lambda equals revisions fails commit storage).get = some s ∧
    (commit_lambda equals revisions fails commit storage).invoked = storage.invoked ∧
    (∀ (value : Option (commit_storage_type T)),
      (commit_loop equals revisions fails commit value).value = some s →
      (commit_loop equals revisions fails commit value).slot = some s) := by
  have hw : wants_exchange equals revisions commit (some s) = false := by
    simp [wants_exchange, heq]
  have h1 : commit_lambda equals revisions fails commit storage = storage := by
    simp only [commit_lambda, hs, commit_loop_discard equals revisions fails commit _ hw]
    cases storage
    simp_all
  refine ⟨h1, ?_, ?_, ?_⟩
  · rw [h1]
    exact hs
  · rw [h1]
  · intro value hv
    obtain ⟨_, _, h | h⟩ := commit_loop_exit equals revisions fails commit value
    · rw [hv, hw] at h
      exact absurd h.1 (by decide)
    · rw [h.2, hv]

/-- C2, at a concrete node: the candidate `7` equals the published value `7` although
its baseline `[2]` is newer than `[1]`, and the node is left as it was. -/
theorem commit_discards_equal_value_witness :
    commit_storage_type.compare_value (fun (a b : Nat) => a == b) ⟨7, 0, [2]⟩ ⟨7, 4, [1]⟩ = true ∧
    commit_lambda (fun (a b : Nat) => a == b) [2] [] ⟨7, 0, [2]⟩
        (⟨some ⟨7, 4, [1]⟩, [3], [], []⟩ : template_storage_type Nat Nat)
      = ⟨some ⟨7, 4, [1]⟩, [3], [], []⟩ :=
  ⟨by decide,
   (commit_discards_equal_value (fun (a b : Nat) => a == b) [2] [] ⟨7, 0, [2]⟩
      (⟨some ⟨7, 4, [1]⟩, [3], [], []⟩ : template_storage_type Nat Nat) ⟨7, 4, [1]⟩ rfl
      (by decide)).1⟩

/-! ## Revisions of published snapshots -/

theorem slot_next_later {T : Type} (a b : Option (commit_storage_type T))
    (h : slot_next a b) : slot_later a b := by
  rcases h with h | ⟨c, hb, hc⟩
  · subst h
    exact ⟨Nat.le_refl _, fun hne => absurd rfl hne⟩
  · have hrev : revision_or_default b = revision_or_default a + 1 := by
      rw [hb]
      exact hc
    exact ⟨by rw [hrev]; exact Nat.le_succ _, fun _ => by rw [hrev]; exact Nat.lt_succ_self _⟩

theorem slot_later_trans {T : Type} (a b c : Option (commit_storage_type T))
    (hab : slot_later a b) (hbc : slot_later b c) : slot_later a c := by
  refine ⟨Nat.le_trans hab.1 hbc.1, fun hne => ?_⟩
  by_cases hba : b = a
  · subst hba
    exact hbc.2 hne
  · exact Nat.lt_of_lt_of_le (hab.2 hba) hbc.1

/-- One atomic action of a thread leaves the slot or publishes a snapshot whose
revision is one more than the revision of the one it replaces. -/
theorem commit_thread_step_next {T : Type} [DecidableEq T] (equals : T → T → Bool)
    (spurious : Bool) (t : commit_thread T) (slot : Option (commit_storage_type T)) :
    slot_next slot (t.step equals spurious slot).2 := by
  unfold commit_thread.step
  cases hpc : t.pc
  · exact Or.inl rfl
  · simp only []
    by_cases hw : wants_exchange equals t.revisions (assign_revision t.commit t.value) t.value
    · simp only [hw, if_true]
      by_cases hx : slot = t.value ∧ spurious = false
      · simp only [atomic_compare_exchange_weak, hx, and_self, if_true]
        exact Or.inr ⟨_, rfl, rfl⟩
      · simp only [atomic_compare_exchange_weak, hx, if_false]
        exact Or.inl rfl
    · simp only [hw]
      exact Or.inl rfl
  · exact Or.inl rfl

theorem commit_system_step_next {T : Type} [DecidableEq T] (equals : T → T → Bool)
    (s : commit_system T) (choice : Nat × Bool) :
    slot_next s.slot (s.step equals choice).slot := by
  unfold commit_system.step
  cases h : s.threads.get? choice.1 with
  | none => exact Or.inl rfl
  | some t => exact commit_thread_step_next equals choice.2 t s.slot

theorem commit_system_slots_head {T : Type} [DecidableEq T] (equals : T → T → Bool)
    (s : commit_system T) (schedule : List (Nat × Bool)) :
    ∃ rest, commit_system.slots equals s schedule = s.slot :: rest := by
  cases schedule with
  | nil => exact ⟨[], rfl⟩
  | cons c cs => exact ⟨_, rfl⟩

theorem commit_system_slots_chain {T : Type} [DecidableEq T] (equals : T → T → Bool)
    (s : commit_system T) (schedule : List (Nat × Bool)) :
    List.Chain' slot_next (commit_system.slots equals s schedule) := by
  induction schedule generalizing s with
  | nil => simp [commit_system.slots]
  | cons c cs ih =>
    obtain ⟨rest, hrest⟩ := commit_system_slots_head equals (s.step equals c) cs
    have h := ih (s.step equals c)
    simp only [commit_system.slots]
    rw [hrest] at h ⊢
    exact List.Chain'.cons (commit_system_step_next equals s c) h

theorem commit_system_slots_later {T : Type} [DecidableEq T] (equals : T → T → Bool)
    (s : commit_system T) (schedule : List (Nat × Bool)) :
    ∀ x ∈ commit_system.slots equals s schedule, slot_later s.slot x := by
  induction schedule generalizing s with
  | nil =>
    intro x hx
    simp only [commit_system.slots, List.mem_singleton] at hx
    subst hx
    exact ⟨Nat.le_refl _, fun hne => absurd rfl hne⟩
  | cons c cs ih =>
    intro x hx
    simp only [commit_system.slots, List.mem_cons] at hx
    rcases hx with hx | hx
    · subst hx
      exact ⟨Nat.le_refl _, fun hne => absurd rfl hne⟩
    · exact slot_later_trans _ _ _
        (slot_next_later _ _ (commit_system_step_next equals s c)) (ih _ x hx)

theorem commit_system_slots_pairwise {T : Type} [DecidableEq T] (equals : T → T → Bool)
    (s : commit_system T) (schedule : List (Nat × Bool)) :
    List.Pairwise slot_later (commit_system.slots equals s schedule) := by
  induction schedule generalizing s with
  | nil => simp [commit_system.slots]
  | cons c cs ih =>
    simp only [commit_system.slots, List.pairwise_cons]
    refine ⟨fun x hx => ?_, ih _⟩
    exact slot_later_trans _ _ _
      (slot_next_later _ _ (commit_system_step_next equals s c))
      (commit_system_slots_later equals _ cs x hx)

/-- C4: a snapshot published by the commit lambda has revision one more than the
revision of the snapshot it replaces, and revision `1` when it replaces none, also when
the snapshot replaced was reloaded by a failing exchange. Hence, however the atomic
actions of any number of commit attempts on one slot interleave, each action leaves the
slot or raises its revision by one, the revision never goes down from one moment to a
later one, and two different snapshots of the slot have increasing revisions. -/
theorem published_revision_is_successor {T : Type} [DecidableEq T] (equals : T → T → Bool)
    (revisions : List revision_type) (fails : List (Option (commit_storage_type T)))
    (commit : commit_storage_type T) (value : Option (commit_storage_type T))
    (system : commit_system T) (schedule : List (Nat × Bool)) :
    ((commit_loop equals revisions fails commit value).slot
        ≠ (commit_loop equals revisions fails commit value).value →
      (commit_loop equals revisions fails commit value).slot
        = some { commit with revision :=
            revision_or_default (commit_loop equals revisions fails commit value).value + 1 } ∧
      (commit_loop equals revisions fails commit value).value ∈ value :: fails) ∧
    ((commit_loop equals revisions fails commit value).value = none →
      (commit_loop equals revisions fails commit value).slot
        = some { commit with revision := 1 }) ∧
    ((commit_loop equals revisions [] commit none).slot = some { commit with revision := 1 }) ∧
    List.Chain' slot_next (commit_system.slots equals system schedule) ∧
    List.Pairwise slot_later (commit_system.slots equals system schedule) ∧
    revision_or_default system.slot ≤ revision_or_default (system.run equals schedule).slot := by
  refine ⟨?_, ?_, ?_, commit_system_slots_chain equals system schedule,
    commit_system_slots_pairwise equals system schedule, ?_⟩
  · intro hne
    obtain ⟨hc, hmem, h | h⟩ := commit_loop_exit equals revisions fails commit value
    · exact ⟨by rw [h.2, hc]; rfl, hmem⟩
    · exact absurd h.2 hne
  · intro hv
    obtain ⟨hc, _, h | h⟩ := commit_loop_exit equals revisions fails commit value
    · rw [h.2, hc, hv]
      rfl
    · rw [hv] at h
      simp [wants_exchange] at h
  · rfl
  · unfold commit_system.run
    induction schedule generalizing system with
    | nil => exact Nat.le_refl _
    | cons c cs ih =>
      simp only [List.foldl_cons]
      exact Nat.le_trans (slot_next_later _ _ (commit_system_step_next equals system c)).1
        (ih _)

/-- C4, at a concrete attempt: the first exchange fails and finds revision `4` in the
slot; the snapshot published replaces that one and has revision `5`. -/
theorem published_revision_is_successor_witness :
    (commit_loop (fun (a b : Nat) => a == b) [2] [some ⟨7, 4, [1]⟩] ⟨9, 0, [2]⟩ none).slot
      = some ⟨9, 5, [2]⟩ :=
  ((published_revision_is_successor (fun (a b : Nat) => a == b) [2] [some ⟨7, 4, [1]⟩]
      ⟨9, 0, [2]⟩ none ⟨[], none⟩ []).1 (by decide)).1

/-! ### The loop and the thread agree -/

theorem commit_system_done_slot {T : Type} [DecidableEq T] (equals : T → T → Bool)
    (t : commit_thread T) (slot : Option (commit_storage_type T)) (hpc : t.pc = commit_pc.done)
    (schedule : List (Nat × Bool)) :
    (commit_system.run equals { threads := [t], slot := slot } schedule).slot = slot := by
  unfold commit_system.run
  induction schedule with
  | nil => rfl
  | cons c cs ih =>
    simp only [List.foldl_cons]
    have hstep : commit_system.step equals { threads := [t], slot := slot } c
        = { threads := [t], slot := slot } := by
      unfold commit_system.step
      cases hc : c.1 with
      | zero => simp [commit_thread.step, hpc]
      | succ n => simp
    rw [hstep]
    exact ih

/-- A thread that runs alone, whose exchange fails spuriously `k` times, leaves the slot
as the commit loop does when each failing exchange finds the slot unchanged. -/
theorem commit_thread_alone {T : Type} [DecidableEq T] (equals : T → T → Bool)
    (revisions : List revision_type) (k : Nat) (commit : commit_storage_type T)
    (slot : Option (commit_storage_type T)) :
    (commit_system.run equals
        { threads := [{ revisions := revisions, commit := commit, value := slot,
                        pc := commit_pc.loop }], slot := slot }
        (List.replicate k (0, true) ++ [(0, false)])).slot
      = (commit_loop equals revisions (List.replicate k slot) commit slot).slot := by
  induction k generalizing commit with
  | zero =>
    simp only [commit_system.run, List.replicate, List.nil_append, List.foldl_cons,
      List.foldl_nil, commit_system.step, List.get?_cons_zero, commit_thread.step,
      atomic_compare_exchange_weak, and_self, if_true, commit_loop]
    split <;> rfl
  | succ n ih =>
    simp only [List.replicate_succ, List.cons_append, commit_loop]
    cases hw : wants_exchange equals revisions (assign_revision commit slot) slot
    · simp only [Bool.false_eq_true, if_false]
      have hstep : commit_system.step equals
          { threads := [{ revisions := revisions, commit := commit, value := slot,
                          pc := commit_pc.loop }], slot := slot } (0, true)
          = { threads := [{ revisions := revisions, commit := assign_revision commit slot,
                            value := slot, pc := commit_pc.done }], slot := slot } := by
        simp [commit_system.step, commit_thread.step, hw]
      simp only [commit_system.run, List.foldl_cons, hstep]
      exact commit_system_done_slot equals _ slot rfl _
    · simp only [if_true]
      have hstep : commit_system.step equals
          { threads := [{ revisions := revisions, commit := commit, value := slot,
                          pc := commit_pc.loop }], slot := slot } (0, true)
          = { threads := [{ revisions := revisions, commit := assign_revision commit slot,
                            value := slot, pc := commit_pc.loop }], slot := slot } := by
        simp [commit_system.step, commit_thread.step, hw, atomic_compare_exchange_weak]
      simp only [commit_system.run, List.foldl_cons, hstep]
      exact ih (assign_revision commit slot)

/-! ## Subscribers -/

/-- The commit lambda changes nothing of a node but its slot: the registry of callbacks
is kept and no callback is invoked. -/
theorem commit_lambda_frame {T D : Type} (equals : T → T → Bool)
    (revisions : List revision_type) (fails : List (Option (commit_storage_type T)))
    (commit : commit_storage_type T) (storage : template_storage_type T D) :
    (commit_lambda equals revisions fails commit storage).callbacks = storage.callbacks ∧
    (commit_lambda equals revisions fails commit storage).invoked = storage.invoked ∧
    (commit_lambda equals revisions fails commit storage).generated = storage.generated :=
  ⟨rfl, rfl, rfl⟩

/-- C5 (the code at the failing input): a node with an empty slot and the callback `0`
registered through `add_callback`; the commit lambda publishes the candidate, with
revision `1`, and invokes no callback. -/
theorem commit_publishes_without_invoking :
    (commit_lambda (fun (a b : Nat) => a == b) [1] [] ⟨10, 0, [1]⟩
        ((make_shared : template_storage_type Nat Nat).add_callback 0)).value
      = some ⟨10, 1, [1]⟩ ∧
    (commit_lambda (fun (a b : Nat) => a == b) [1] [] ⟨10, 0, [1]⟩
        ((make_shared : template_storage_type Nat Nat).add_callback 0)).callbacks = [0] ∧
    (commit_lambda (fun (a b : Nat) => a == b) [1] [] ⟨10, 0, [1]⟩
        ((make_shared : template_storage_type Nat Nat).add_callback 0)).invoked = [] := by
  decide

/-! ## The update of a node -/

theorem all_true_eq_false_iff {α : Type} (values : List (Option α)) :
    all_true values = false ↔ none ∈ values := by
  induction values with
  | nil => simp [all_true]
  | cons v vs ih =>
    simp only [all_true, List.all_cons, Bool.and_eq_false_imp, List.mem_cons] at ih ⊢
    cases v with
    | none => simp
    | some x =>
      simp only [Option.isSome_some, forall_const, false_or]
      rw [ih]
      simp

theorem update_of_unset {T D : Type} (equals : T → T → Bool) (generator : generator_type T D)
    (fails : List (List (Option (commit_storage_type T))))
    (values : List (Option (storage_type D))) (storage : template_storage_type T D)
    (h : none ∈ values) : update equals generator fails values storage = storage := by
  simp [update, update_impl, (all_true_eq_false_iff values).mpr h]

theorem updates_of_unset {T D : Type} (equals : T → T → Bool) (generator : generator_type T D)
    (history : List (List (Option (storage_type D)))) (storage : template_storage_type T D)
    (h : ∀ values ∈ history, none ∈ values) :
    updates equals generator history storage = storage := by
  induction history generalizing storage with
  | nil => rfl
  | cons values rest ih =>
    simp only [updates]
    rw [update_of_unset equals generator [] values storage (h values (List.mem_cons_self _ _))]
    exact ih storage (fun vs hvs => h vs (List.mem_cons_of_mem _ hvs))

/-- C3: while one of the dependencies holds no snapshot, `update()` does not call the
generator and leaves the node as it was: this holds of one call, of any sequence of
calls, and a node constructed over such dependencies has an empty slot that stays
empty through any such sequence. -/
theorem update_waits_for_every_dependency {T D : Type} (equals : T → T → Bool)
    (generator : generator_type T D) (fails : List (List (Option (commit_storage_type T))))
    (values : List (Option (storage_type D)))
    (history : List (List (Option (storage_type D)))) (storage : template_storage_type T D)
    (hvalues : none ∈ values) (hhistory : ∀ later ∈ history, none ∈ later) :
    update equals generator fails values storage = storage ∧
    (update equals generator fails values storage).generated = storage.generated ∧
    (update equals generator fails values storage).get = storage.get ∧
    updates equals generator history storage = storage ∧
    (storage.get = none → (updates equals generator history storage).get = none) ∧
    (make equals generator fails values).get = none ∧
    (updates equals generator history (make equals generator fails values)).get = none := by
  have h1 := update_of_unset equals generator fails values storage hvalues
  have h2 := updates_of_unset equals generator history storage hhistory
  have h3 : make equals generator fails values = make_shared :=
    update_of_unset equals generator fails values make_shared hvalues
  refine ⟨h1, by rw [h1], by rw [h1], h2, fun h => by rw [h2]; exact h, by rw [h3]; rfl, ?_⟩
  rw [h3, updates_of_unset equals generator history make_shared hhistory]
  rfl

/-- C3, at a concrete node: the second of two dependencies is unset, and a node that
doubles the sum of its dependencies stays empty through construction and two updates. -/
theorem update_waits_for_every_dependency_witness :
    (updates (fun (a b : Nat) => a == b)
        (synchronous_generator (fun (vs : List Nat) => 2 * vs.sum))
        [[some ⟨5, 2⟩, none], [none, none]]
        (make (fun (a b : Nat) => a == b)
          (synchronous_generator (fun (vs : List Nat) => 2 * vs.sum)) []
          [some ⟨5, 1⟩, none])).get = none :=
  (update_waits_for_every_dependency (fun (a b : Nat) => a == b)
      (synchronous_generator (fun (vs : List Nat) => 2 * vs.sum)) []
      [some ⟨5, 1⟩, none] [[some ⟨5, 2⟩, none], [none, none]] make_shared
      (by decide) (by decide)).2.2.2.2.2.2

theorem commit_loop_spurious_on_empty {T : Type} (equals : T → T → Bool)
    (revisions : List revision_type) (fails : List (Option (commit_storage_type T)))
    (commit : commit_storage_type T) (h : ∀ x ∈ fails, x = none) :
    (commit_loop equals revisions fails commit none).slot
      = some { commit with revision := 1 } := by
  induction fails generalizing commit with
  | nil => rfl
  | cons x rest ih =>
    have hx : x = none := h x (List.mem_cons_self _ _)
    subst hx
    simp only [commit_loop, wants_exchange, if_true]
    rw [ih _ (fun y hy => h y (List.mem_cons_of_mem _ hy))]
    rfl

/-- C9: a node constructed over dependencies that all hold a snapshot, with a generator
that calls the commit lambda once before returning, with `f` of the values of the
dependencies, holds a snapshot right after construction: its value is `f` of those
values and its revision is `1`. Exchanges of that commit that fail spuriously, finding
the slot still empty, change nothing. -/
theorem constructed_node_holds_initial_value {T D : Type} (equals : T → T → Bool)
    (f : List D → T) (fails : List (List (Option (commit_storage_type T))))
    (values : List (Option (storage_type D)))
    (hall : ∀ v ∈ values, v ≠ none)
    (hfails : ∀ first ∈ fails.head?, ∀ x ∈ first, x = none) :
    (make equals (synchronous_generator f) fails values).get
      = some { value := f ((deref values).map storage_type.value), revision := 1,
               revisions := (deref values).map storage_type.revision } := by
  have htrue : all_true values = true := by
    cases h : all_true values
    · exact absurd rfl (hall none ((all_true_eq_false_iff values).mp h))
    · rfl
  simp only [make, update, update_impl, htrue, make_shared, Option.isNone_none, Bool.true_or,
    if_true, synchronous_generator, template_storage_type.get]
  cases fails with
  | nil => rfl
  | cons first rest =>
    simp only [run_commits, commit_lambda]
    rw [commit_loop_spurious_on_empty equals _ first _
      (hfails first (by simp))]

/-- C9, at a concrete node: a node that doubles a leaf holding `5` holds `10`, with
revision `1`, right after construction. -/
theorem constructed_node_holds_initial_value_witness :
    (make (fun (a b : Nat) => a == b)
        (synchronous_generator (fun (vs : List Nat) => 2 * vs.headD 0)) []
        [some ⟨5, 1⟩]).get
      = some ⟨10, 1, [1]⟩ :=
  constructed_node_holds_initial_value (fun (a b : Nat) => a == b)
    (fun (vs : List Nat) => 2 * vs.headD 0) [] [some ⟨5, 1⟩] (by decide) (by decide)

end repository_type

namespace sink_repository_type

/-! ## Sinks -/

theorem get_of_storage {T : Type} (sink : sink_repository_type T)
    (storage : template_storage_type T) (h : sink.storage = some storage) :
    sink.get = Except.ok storage.value := by
  simp [get, h, template_storage_type.get]

theorem operator_bool_of_storage {T : Type} (sink : sink_repository_type T)
    (storage : template_storage_type T) (h : sink.storage = some storage) :
    sink.operator_bool = Except.ok storage.value.isSome := by
  simp [operator_bool, get_of_storage sink storage h]

/-- C6 (the claim as stated fails): on the sink made by the public default constructor,
also on a sink that has been moved from, `storage` is null and `get()` goes through it:
the presence check `operator bool` does not return `false`, it fails, and `operator*`
does not throw `std::domain_error`. -/
theorem operator_bool_fails_on_default_constructed :
    (default_constructor : sink_repository_type Nat).operator_bool
      = Except.error failure.null_dereference ∧
    (¬ ∃ present, (default_constructor : sink_repository_type Nat).operator_bool
      = Except.ok present) ∧
    (default_constructor : sink_repository_type Nat).operator_star
      = Except.error failure.null_dereference ∧
    (default_constructor : sink_repository_type Nat).operator_star
      ≠ Except.error (failure.domain_error "value not available") ∧
    (move_constructor (make (some (⟨5, 1⟩ : storage_type Nat)))).2.operator_bool
      = Except.error failure.null_dereference := by
  refine ⟨rfl, ?_, rfl, ?_, rfl⟩
  · rintro ⟨present, h⟩
    simp [operator_bool, get, default_constructor] at h
  · intro h
    simp [operator_star, get, default_constructor] at h

/-- C6 (amended): on a sink that holds a storage (one built by `make` or
`sink(dependency)` and not moved from), `operator*` throws
`std::domain_error("value not available")` exactly when `operator bool` is false, that
is, when the slot of the sink holds no snapshot; it fails in no other way; when a
snapshot is present `operator*` returns the value of that snapshot; and `operator bool`
never fails: it returns the presence of a snapshot. -/
theorem operator_star_throws_iff_absent {T : Type} (sink : sink_repository_type T)
    (storage : template_storage_type T) (hstorage : sink.storage = some storage) :
    (sink.operator_star = Except.error (failure.domain_error "value not available") ↔
      sink.operator_bool = Except.ok false) ∧
    ((∃ e, sink.operator_star = Except.error e) ↔ sink.operator_bool = Except.ok false) ∧
    (sink.operator_bool = Except.ok false ↔ sink.get = Except.ok none) ∧
    (sink.operator_bool = Except.ok true ↔ ∃ snapshot, sink.get = Except.ok (some snapshot)) ∧
    (∀ snapshot, sink.get = Except.ok (some snapshot) →
      sink.operator_star = Except.ok snapshot.value) ∧
    (∃ present, sink.operator_bool = Except.ok present) ∧
    sink.get = Except.ok storage.get := by
  rw [operator_bool_of_storage sink storage hstorage]
  unfold operator_star
  rw [get_of_storage sink storage hstorage]
  cases h : storage.value with
  | none => simp [template_storage_type.get, h]
  | some snapshot => simp [template_storage_type.get, h]

/-- C6 (amended), at concrete sinks: an empty sink built by `make` throws and a sink
holding `5` reads `5`. -/
theorem operator_star_throws_iff_absent_witness :
    (make (none : Option (storage_type Nat))).storage = some ⟨none⟩ ∧
    (make (none : Option (storage_type Nat))).operator_star
      = Except.error (failure.domain_error "value not available") ∧
    (make (some (⟨5, 1⟩ : storage_type Nat))).operator_star = Except.ok 5 :=
  ⟨rfl,
   (operator_star_throws_iff_absent (make (none : Option (storage_type Nat))) ⟨none⟩ rfl).1.mpr
     rfl,
   (operator_star_throws_iff_absent (make (some (⟨5, 1⟩ : storage_type Nat)))
     ⟨some ⟨5, 1⟩⟩ rfl).2.2.2.2.1 ⟨5, 1⟩ rfl⟩

theorem notify_append {T : Type} (sink : sink_repository_type T)
    (history : List (Option (storage_type T))) (dependency : Option (storage_type T)) :
    notify sink (history ++ [dependency]) = callback dependency (notify sink history) := by
  induction history generalizing sink with
  | nil => rfl
  | cons d rest ih =>
    simp only [List.cons_append, notify]
    exact ih _

theorem callback_get {T : Type} (dependency : Option (storage_type T))
    (sink : sink_repository_type T) (storage : template_storage_type T)
    (h : sink.storage = some storage) : (callback dependency sink).get = Except.ok dependency := by
  simp [callback, h, get, template_storage_type.get, template_storage_type.evaluate]

theorem notify_keeps_storage {T : Type} (storage : template_storage_type T)
    (history : List (Option (storage_type T))) :
    ∃ later, (notify { storage := some storage } history).storage = some later := by
  induction history generalizing storage with
  | nil => exact ⟨storage, rfl⟩
  | cons d rest ih => exact ih (storage.evaluate d)

/-- C7: a sink constructed over a dependency that holds a snapshot of value `v` is
present and reads `v`; a sink constructed over a dependency without snapshot is absent,
and after the dependency has published a snapshot of value `v` and the callback of the
sink has run, the sink is present and reads `v`; after construction and after every
notification delivered, the sink (any sink that holds a storage) holds what its
dependency holds. -/
theorem sink_follows_dependency {T : Type} (v : T) (revision : revision_type)
    (dependency : Option (storage_type T)) (storage : template_storage_type T)
    (history : List (Option (storage_type T))) :
    ((make (some ⟨v, revision⟩)).operator_bool = Except.ok true ∧
      (make (some ⟨v, revision⟩)).operator_star = Except.ok v) ∧
    ((make (none : Option (storage_type T))).operator_bool = Except.ok false ∧
      (make (none : Option (storage_type T))).operator_star
        = Except.error (failure.domain_error "value not available")) ∧
    ((callback (some ⟨v, revision⟩) (make none)).operator_bool = Except.ok true ∧
      (callback (some ⟨v, revision⟩) (make none)).operator_star = Except.ok v) ∧
    (make dependency).get = Except.ok dependency ∧
    (make dependency).operator_bool = Except.ok dependency.isSome ∧
    (callback dependency { storage := some storage }).get = Except.ok dependency ∧
    (callback dependency { storage := some storage }).operator_bool
      = Except.ok dependency.isSome ∧
    (notify { storage := some storage } (history ++ [dependency])).get = Except.ok dependency ∧
    (notify (make dependency) []).get = Except.ok dependency ∧
    (notify (make dependency) history).get
      = Except.ok ((history.getLast?).getD dependency) := by
  refine ⟨⟨rfl, rfl⟩, ⟨rfl, rfl⟩, ⟨rfl, rfl⟩, rfl, ?_, rfl, ?_, ?_, rfl, ?_⟩
  · exact operator_bool_of_storage (make dependency) ⟨dependency⟩ rfl
  · exact operator_bool_of_storage _ ⟨dependency⟩ rfl
  · rw [notify_append]
    obtain ⟨later, hlater⟩ := notify_keeps_storage storage history
    exact callback_get dependency _ later hlater
  · rcases List.eq_nil_or_concat history with h | ⟨front, last, h⟩
    · subst h
      rfl
    · subst h
      rw [List.concat_eq_append, notify_append]
      obtain ⟨later, hlater⟩ := notify_keeps_storage
        (template_storage_type.evaluate dependency { value := none }) front
      have hlast : ((front ++ [last]).getLast?).getD dependency = last := by simp
      rw [hlast]
      exact callback_get last _ later hlater

/-- C8: after `evaluate()` the snapshot of the sink is the snapshot `get()` of the
dependency returned, with its revision and its value, or none when the dependency has
none; a second `evaluate()` over the same dependency changes nothing; a sink over a
node holds the revision and the value of the snapshot of the node. -/
theorem evaluate_copies_dependency {T D : Type} (dependency : Option (storage_type T))
    (storage : template_storage_type T) (node : repository_type.template_storage_type T D) :
    (storage.evaluate dependency).get = dependency ∧
    (storage.evaluate none).get = none ∧
    (storage.evaluate dependency).evaluate dependency = storage.evaluate dependency ∧
    (∀ snapshot, node.get = some snapshot →
      ∃ copy, (storage.evaluate (node.get.map commit_storage_type.to_storage)).get = some copy ∧
        copy.revision = snapshot.revision ∧ copy.value = snapshot.value) :=
  ⟨rfl, rfl, rfl, fun snapshot h => ⟨snapshot.to_storage, by rw [h]; rfl, rfl, rfl⟩⟩

/-- C8, at a concrete sink over a node whose snapshot has value `10` and revision `3`. -/
theorem evaluate_copies_dependency_witness :
    ∃ copy, (template_storage_type.evaluate
        ((⟨some ⟨10, 3, [1]⟩, [], [], []⟩ :
            repository_type.template_storage_type Nat Nat).get.map
          commit_storage_type.to_storage) ⟨none⟩).get = some copy ∧
      copy.revision = 3 ∧ copy.value = 10 :=
  (evaluate_copies_dependency none ⟨none⟩
      (⟨some ⟨10, 3, [1]⟩, [], [], []⟩ : repository_type.template_storage_type Nat Nat)).2.2.2
    ⟨10, 3, [1]⟩ rfl

end sink_repository_type

end push

end frp
